import Mathlib

/-
Verification of the Alephium WalletConnect provider, a session-oriented
signing provider. The repository carries two structurally different
revisions of the provider class:

* `AlephiumProvider` from src/src/index.ts: chain strings
  "alephium:<networkId>-<chainGroup>", account strings
  "alephium:<networkId>-<group>:<address>-<pubkey>", a two-tier
  deduplicating account reconciler, and a chain filter that compares the
  decoded group against the configured one.

* `WalletConnectProvider` from the unnamed source file (part_003): chain
  strings "alephium:<networkId>/<chainGroup>", account strings
  "<permittedChain>:<address>+<pubkey>", a wildcard-aware group
  predicate `isCompatibleChainGroup`, a deduplicating `setChain`, and a
  `request` dispatcher that resolves the signer address to a cached
  account and scopes the forwarded call to the group of that account.

The embedding models the JavaScript primitives the code relies on:
`Number(x)` becomes `Option Int` with `none` as the NaN sentinel,
`String.prototype.replace(/c/g, d)` and `split(":")` become character
level list operations, and array `join()` becomes `joinComma`.
-/

namespace JsPrim

/-- Decimal digit character for `n % 10`-style rendering; callers always
pass a value below ten. -/
def decChar : Nat → Char
  | 0 => '0'
  | 1 => '1'
  | 2 => '2'
  | 3 => '3'
  | 4 => '4'
  | 5 => '5'
  | 6 => '6'
  | 7 => '7'
  | 8 => '8'
  | _ => '9'

/-- Accumulating decimal evaluator over a character list: returns `none`
as soon as a non-digit appears, mirroring NaN propagation in
JavaScript number parsing. -/
def digitsVal (acc : Nat) : List Char → Option Nat
  | [] => some acc
  | c :: cs => if c.isDigit then digitsVal (acc * 10 + (c.toNat - 48)) cs else none

/-- Parse a non-empty all-digit character list; `none` models NaN. -/
def digitsToNat? : List Char → Option Nat
  | [] => none
  | c :: cs => digitsVal 0 (c :: cs)

/-- JavaScript `Number(s)` on the integer fragment that the wire formats
use: the empty string converts to `0`, an optional sign followed by
decimal digits converts to the signed value, anything else is NaN
(modelled as `none`). -/
def jsNumber (s : String) : Option Int :=
  match s.data with
  | [] => some 0
  | c :: rest =>
    if c = '-' then (digitsToNat? rest).map (fun n => -(Int.ofNat n))
    else if c = '+' then (digitsToNat? rest).map Int.ofNat
    else (digitsToNat? (c :: rest)).map Int.ofNat

/-- Fuelled decimal rendering of a natural number (most significant digit
first); fuel `n + 1` always suffices. -/
def natDigsAux : Nat → Nat → List Char
  | 0, _ => []
  | fuel + 1, n => if n < 10 then [decChar n] else natDigsAux fuel (n / 10) ++ [decChar (n % 10)]

/-- Decimal digit list of a natural number. -/
def natDigs (n : Nat) : List Char := natDigsAux (n + 1) n

/-- Decimal string of a natural number, as JavaScript renders it. -/
def natStr (n : Nat) : String := String.mk (natDigs n)

/-- Decimal string of an integer, as JavaScript template interpolation
renders an integral number. -/
def intStr : Int → String
  | Int.ofNat n => natStr n
  | Int.negSucc n => "-" ++ natStr (n + 1)

/-- Rendering of a JavaScript number (`Option Int` with `none` = NaN)
inside a template literal. -/
def numStr : Option Int → String
  | none => "NaN"
  | some i => intStr i

/-- Rendering of a possibly-undefined string inside a template literal:
JavaScript prints `undefined` as the literal word. -/
def jsStringOf : Option String → String
  | none => "undefined"
  | some s => s

/-- Strict equality `===` between JavaScript numbers: NaN compares false
against everything, including itself. -/
def jsEq : Option Int → Option Int → Bool
  | some x, some y => x == y
  | _, _ => false

/-- `String.prototype.replace(/old/g, new)` for one-character patterns. -/
def jsReplace (old new : Char) (s : String) : String :=
  String.mk (s.data.map (fun c => if c = old then new else c))

/-- Prepend a character to the first segment of a split result. -/
def consHead (c : Char) : List (List Char) → List (List Char)
  | [] => [[c]]
  | p :: ps => (c :: p) :: ps

/-- Character-level splitter behind `split(sep)`: the result is never
empty and empty segments are preserved, as in JavaScript. -/
def splitChar (sep : Char) : List Char → List (List Char)
  | [] => [[]]
  | c :: cs =>
    if c = sep then [] :: splitChar sep cs
    else consHead c (splitChar sep cs)

/-- JavaScript `s.split(sep)` for a one-character separator. -/
def jsSplit (sep : Char) (s : String) : List String :=
  (splitChar sep s.data).map String.mk

/-- JavaScript `s.startsWith(p)`. -/
def jsStartsWith (s p : String) : Bool := p.data.isPrefixOf s.data

/-- JavaScript `Array.prototype.join()` with the default comma separator. -/
def joinComma : List String → String
  | [] => ""
  | [x] => x
  | x :: xs => x ++ "," ++ joinComma xs

/-- Reading a destructured field that may fall off the end of the split
result: `Number(undefined)` is NaN. -/
def fieldNum (o : Option String) : Option Int :=
  match o with
  | none => none
  | some t => jsNumber t

end JsPrim

namespace JsPrim

theorem decChar_isDigit (n : Nat) : (decChar n).isDigit = true := by
  unfold decChar
  split <;> decide

theorem decChar_toNat (n : Nat) (h : n < 10) : (decChar n).toNat - 48 = n := by
  interval_cases n <;> decide

theorem isDigit_ne (c : Char) (h : c.isDigit = true) :
    ¬c = '-' ∧ ¬c = '+' ∧ ¬c = ':' ∧ ¬c = '/' := by
  refine ⟨?_, ?_, ?_, ?_⟩ <;> (intro e; subst e; exact absurd h (by decide))

theorem digitsVal_append (xs ys : List Char) (acc : Nat) :
    digitsVal acc (xs ++ ys) = (digitsVal acc xs).bind (fun m => digitsVal m ys) := by
  induction xs generalizing acc with
  | nil => simp [digitsVal]
  | cons c cs ih =>
    by_cases hc : c.isDigit
    · simp [digitsVal, hc, ih]
    · simp [digitsVal, hc]

theorem natDigsAux_ne_nil (fuel n : Nat) (h : n < fuel) : natDigsAux fuel n ≠ [] := by
  cases fuel with
  | zero => omega
  | succ f =>
    unfold natDigsAux
    split
    · simp
    · simp

theorem natDigsAux_digits (fuel n : Nat) (h : n < fuel) :
    ∀ c ∈ natDigsAux fuel n, c.isDigit = true := by
  induction fuel generalizing n with
  | zero => omega
  | succ f ih =>
    unfold natDigsAux
    split
    · intro c hc
      simp only [List.mem_singleton] at hc
      subst hc
      exact decChar_isDigit n
    · intro c hc
      rename_i hn
      rw [List.mem_append] at hc
      rcases hc with hc | hc
      · have hdiv : n / 10 < f := by
          have h1 : n / 10 < n := Nat.div_lt_self (by omega) (by omega)
          omega
        exact ih (n / 10) hdiv c hc
      · simp only [List.mem_singleton] at hc
        subst hc
        exact decChar_isDigit (n % 10)

theorem natDigsAux_val (fuel n : Nat) (h : n < fuel) (acc : Nat) :
    digitsVal acc (natDigsAux fuel n) =
      some (acc * 10 ^ (natDigsAux fuel n).length + n) := by
  induction fuel generalizing n acc with
  | zero => omega
  | succ f ih =>
    unfold natDigsAux
    split
    · rename_i hn
      simp only [digitsVal, decChar_isDigit, if_true, decChar_toNat n hn, List.length_cons,
        List.length_nil]
      norm_num
    · rename_i hn
      have hdiv : n / 10 < f := by
        have h1 : n / 10 < n := Nat.div_lt_self (by omega) (by omega)
        omega
      rw [digitsVal_append, ih (n / 10) hdiv acc]
      simp only [Option.some_bind, digitsVal, decChar_isDigit, if_true,
        decChar_toNat (n % 10) (Nat.mod_lt n (by omega)), List.length_append,
        List.length_cons, List.length_nil]
      have hmod : (acc * 10 ^ (natDigsAux f (n / 10)).length + n / 10) * 10 + n % 10 =
          acc * 10 ^ ((natDigsAux f (n / 10)).length + (0 + 1)) + n := by
        have := Nat.div_add_mod n 10
        ring_nf
        omega
      exact congrArg some hmod

theorem digitsToNat?_natDigs (n : Nat) : digitsToNat? (natDigs n) = some n := by
  unfold natDigs
  have hne := natDigsAux_ne_nil (n + 1) n (by omega)
  have hval := natDigsAux_val (n + 1) n (by omega) 0
  cases hd : natDigsAux (n + 1) n with
  | nil => exact absurd hd hne
  | cons c cs =>
    rw [hd] at hval
    simpa [digitsToNat?] using hval

theorem natDigs_digits (n : Nat) : ∀ c ∈ natDigs n, c.isDigit = true :=
  natDigsAux_digits (n + 1) n (by omega)

theorem natDigs_ne_nil (n : Nat) : natDigs n ≠ [] :=
  natDigsAux_ne_nil (n + 1) n (by omega)

theorem jsNumber_natStr (n : Nat) : jsNumber (natStr n) = some (n : Int) := by
  unfold natStr jsNumber
  cases hd : natDigs n with
  | nil => exact absurd hd (natDigs_ne_nil n)
  | cons c cs =>
    have hdig : c.isDigit = true := by
      have := natDigs_digits n
      rw [hd] at this
      exact this c (by simp)
    obtain ⟨h1, h2, _, _⟩ := isDigit_ne c hdig
    have hval : digitsToNat? (c :: cs) = some n := by
      have := digitsToNat?_natDigs n
      rwa [hd] at this
    simp [h1, h2, hval]

theorem data_append (a b : String) : (a ++ b).data = a.data ++ b.data := by
  cases a
  cases b
  rfl

theorem jsNumber_intStr (i : Int) : jsNumber (intStr i) = some i := by
  cases i with
  | ofNat n => simpa [intStr] using jsNumber_natStr n
  | negSucc n =>
    have hdata : ("-" ++ natStr (n + 1)).data = '-' :: natDigs (n + 1) := by
      rw [data_append]
      rfl
    unfold intStr jsNumber
    rw [hdata]
    simp [digitsToNat?_natDigs (n + 1), Int.negSucc_eq]

theorem jsNumber_numStr (o : Option Int) : jsNumber (numStr o) = o := by
  cases o with
  | none => decide
  | some i => simpa [numStr] using jsNumber_intStr i

theorem numStr_inj {o₁ o₂ : Option Int} (h : numStr o₁ = numStr o₂) : o₁ = o₂ := by
  have := congrArg jsNumber h
  rwa [jsNumber_numStr, jsNumber_numStr] at this

theorem data_mk (l : List Char) : (String.mk l).data = l := rfl

theorem mk_data (s : String) : String.mk s.data = s := by
  cases s
  rfl

theorem consHead_ne_nil (c : Char) (l : List (List Char)) : consHead c l ≠ [] := by
  cases l <;> simp [consHead]

theorem splitChar_ne_nil (sep : Char) (cs : List Char) : splitChar sep cs ≠ [] := by
  cases cs with
  | nil => simp [splitChar]
  | cons c cs =>
    unfold splitChar
    split
    · simp
    · exact consHead_ne_nil c (splitChar sep cs)

theorem splitChar_sep_cons (sep : Char) (ys : List Char) :
    splitChar sep (sep :: ys) = [] :: splitChar sep ys := by
  simp [splitChar]

theorem splitChar_append_sep (sep : Char) (xs ys : List Char)
    (h : ∀ c ∈ xs, ¬c = sep) :
    splitChar sep (xs ++ sep :: ys) = xs :: splitChar sep ys := by
  induction xs with
  | nil => simp [splitChar_sep_cons]
  | cons c cs ih =>
    have hc : ¬c = sep := h c (by simp)
    have hrest : ∀ d ∈ cs, ¬d = sep := fun d hd => h d (by simp [hd])
    rw [List.cons_append]
    conv_lhs => rw [splitChar]
    rw [if_neg hc, ih hrest]
    rfl

theorem splitChar_all_ne (sep : Char) (xs : List Char) (h : ∀ c ∈ xs, ¬c = sep) :
    splitChar sep xs = [xs] := by
  induction xs with
  | nil => rfl
  | cons c cs ih =>
    have hc : ¬c = sep := h c (by simp)
    have hrest : ∀ d ∈ cs, ¬d = sep := fun d hd => h d (by simp [hd])
    conv_lhs => rw [splitChar]
    rw [if_neg hc, ih hrest]
    rfl

theorem mem_of_mem_splitChar (sep : Char) (cs : List Char) (p : List Char)
    (hp : p ∈ splitChar sep cs) : ∀ c ∈ p, c ∈ cs ∧ ¬c = sep := by
  induction cs generalizing p with
  | nil =>
    simp only [splitChar, List.mem_singleton] at hp
    subst hp
    simp
  | cons d ds ih =>
    unfold splitChar at hp
    by_cases hd : d = sep
    · rw [if_pos hd] at hp
      rcases List.mem_cons.mp hp with he | he
      · subst he
        simp
      · intro c hc
        have := ih p he c hc
        exact ⟨by simp [this.1], this.2⟩
    · rw [if_neg hd] at hp
      cases hsplit : splitChar sep ds with
      | nil => exact absurd hsplit (splitChar_ne_nil sep ds)
      | cons q qs =>
        rw [hsplit] at hp
        simp only [consHead] at hp
        rcases List.mem_cons.mp hp with he | he
        · subst he
          intro c hc
          rcases List.mem_cons.mp hc with he2 | he2
          · subst he2
            exact ⟨by simp, hd⟩
          · have hq : q ∈ splitChar sep ds := by rw [hsplit]; simp
            have := ih q hq c he2
            exact ⟨by simp [this.1], this.2⟩
        · intro c hc
          have hqs : p ∈ splitChar sep ds := by rw [hsplit]; simp [he]
          have := ih p hqs c hc
          exact ⟨by simp [this.1], this.2⟩

theorem map_replace_of_not_mem (old new : Char) (l : List Char)
    (h : ∀ c ∈ l, ¬c = old) :
    l.map (fun c => if c = old then new else c) = l := by
  induction l with
  | nil => rfl
  | cons c cs ih =>
    have hc : ¬c = old := h c (by simp)
    have hrest : ∀ d ∈ cs, ¬d = old := fun d hd => h d (by simp [hd])
    simp [hc, ih hrest]

theorem not_mem_map_replace (old new : Char) (hne : ¬new = old) (l : List Char) :
    ∀ c ∈ l.map (fun c => if c = old then new else c), ¬c = old := by
  intro c hc
  rcases List.mem_map.mp hc with ⟨d, _, hd⟩
  by_cases h : d = old
  · rw [if_pos h] at hd
    rw [← hd]
    exact hne
  · rw [if_neg h] at hd
    rw [← hd]
    exact h

theorem jsNumber_nonneg (cs : List Char) (h : '-' ∉ cs) (z : Int)
    (hz : jsNumber (String.mk cs) = some z) : 0 ≤ z := by
  cases cs with
  | nil =>
    simp only [jsNumber, data_mk, Option.some_inj] at hz
    omega
  | cons c rest =>
    simp only [jsNumber, data_mk] at hz
    have hc : ¬c = '-' := fun e => h (by simp [e])
    rw [if_neg hc] at hz
    by_cases hp : c = '+'
    · rw [if_pos hp] at hz
      rcases Option.map_eq_some'.mp hz with ⟨m, _, hm⟩
      subst hm
      exact Int.natCast_nonneg m
    · rw [if_neg hp] at hz
      rcases Option.map_eq_some'.mp hz with ⟨m, _, hm⟩
      subst hm
      exact Int.natCast_nonneg m

end JsPrim

open JsPrim

/-- A cached account as produced by the account decoders. Fields that a
malformed wire string leaves undefined are `none`; a group whose numeric
field failed to parse is the NaN sentinel `none`. -/
structure Account where
  address : Option String
  pubkey : Option String
  group : Option Int
deriving DecidableEq, Repr

/- The `AlephiumProvider` class of src/src/index.ts. Chain strings are
"alephium:networkId-chainGroup", account strings
"alephium:networkId-group:address-pubkey"; decoders normalise the dash
separator to a colon before splitting. -/
namespace AlephiumProvider

/-- The mutable provider fields read and written by the reconciler:
`networkId`, `chainGroup`, the published `accounts` and the dedup cache
`lastSetAccounts`. -/
structure ProviderState where
  networkId : Option Int
  chainGroup : Option Int
  accounts : List Account
  lastSetAccounts : Option (List Account)
deriving DecidableEq, Repr

/-- `formatChain(networkId, chainGroup)` from src/src/index.ts. -/
def formatChain (networkId chainGroup : Option Int) : String :=
  "alephium:" ++ numStr networkId ++ "-" ++ numStr chainGroup

/-- `parseChain(chainString)`: replace dashes by colons, split on colons,
convert fields 1 and 2 with `Number`. -/
def parseChain (chainString : String) : Option Int × Option Int :=
  let parts := jsSplit ':' (jsReplace '-' ':' chainString)
  (fieldNum (parts.get? 1), fieldNum (parts.get? 2))

/-- `isCompatibleChain(chain)`: namespace check plus strict equality of
the decoded group against the configured `chainGroup`. -/
def isCompatibleChain (chainGroup : Option Int) (chain : String) : Bool :=
  jsStartsWith chain "alephium:" && jsEq (parseChain chain).2 chainGroup

/-- `formatAccount(networkId, account)` from src/src/index.ts. -/
def formatAccount (networkId : Option Int) (account : Account) : String :=
  "alephium:" ++ numStr networkId ++ "-" ++ numStr account.group ++ ":" ++
    jsStringOf account.address ++ "-" ++ jsStringOf account.pubkey

/-- `parseAccount(account)`: replace dashes by colons, split on colons,
read group from field 2 and address/pubkey from fields 3 and 4. -/
def parseAccount (account : String) : Account :=
  let parts := jsSplit ':' (jsReplace '-' ':' account)
  { address := parts.get? 3
    pubkey := parts.get? 4
    group := fieldNum (parts.get? 2) }

/-- `sameAccounts(account0, account1)`: render both lists with
`formatAccount` under the current `networkId`, join with commas and
compare; an undefined second list compares false. -/
def sameAccounts (networkId : Option Int) (account0 : List Account)
    (account1 : Option (List Account)) : Bool :=
  match account1 with
  | none => false
  | some l =>
    joinComma (account0.map (formatAccount networkId)) ==
      joinComma (l.map (formatAccount networkId))

/-- `setAccounts(accounts, t)` (the tag is diagnostics only): first tier
dedups the parsed payload against `lastSetAccounts`; second tier filters
on the configured group and dedups against the published `accounts`. The
second component of the result is the payload of the emitted
`accountsChanged` event, `none` when no event fires. -/
def setAccounts (s : ProviderState) (accounts : List String) :
    ProviderState × Option (List Account) :=
  let parsedAccounts := accounts.map parseAccount
  if sameAccounts s.networkId parsedAccounts s.lastSetAccounts then (s, none)
  else
    let s1 : ProviderState := { s with lastSetAccounts := some parsedAccounts }
    let newAccounts := parsedAccounts.filter (fun a => jsEq a.group s1.chainGroup)
    if sameAccounts s1.networkId newAccounts (some s1.accounts) then (s1, none)
    else ({ s1 with accounts := newAccounts }, some newAccounts)

/-- `setChain(chains)`: filter the incoming list through
`isCompatibleChain`; adopt the parse of the first compatible entry and
emit `chainChanged` with the new `networkId`, otherwise do nothing. The
second component is the payload of the emitted event. -/
def setChain (s : ProviderState) (chains : List String) :
    ProviderState × Option (Option Int) :=
  match chains.filter (fun x => isCompatibleChain s.chainGroup x) with
  | [] => (s, none)
  | c :: _ =>
    let p := parseChain c
    ({ s with networkId := p.1, chainGroup := p.2 }, some p.1)

end AlephiumProvider

/- The `WalletConnectProvider` class of the unnamed source file
(part_003). Chain strings are "alephium:networkId/chainGroup", account
strings "permittedChain:address+pubkey"; the account group is recomputed
from the address by the external `groupOfAddress`, modelled as an
uninterpreted function parameter. -/
namespace WalletConnectProvider

/-- The supported signer methods, as listed in the source. -/
def signerMethods : List String :=
  ["alph_getAccounts", "alph_signTransferTx", "alph_signContractCreationTx",
   "alph_signScriptTx", "alph_signUnsignedTx", "alph_signHexString",
   "alph_signMessage"]

/-- The provider fields the dispatcher and reconciler touch. -/
structure ProviderState where
  networkId : Option Int
  chainGroup : Option Int
  methods : List String
  accounts : List Account
  lastSetAccounts : Option (List Account)
  lastSetChains : Option (List String)
deriving DecidableEq, Repr

/-- `formatChain(networkId, chainGroup)` with the slash separator. -/
def formatChain (networkId chainGroup : Option Int) : String :=
  "alephium:" ++ numStr networkId ++ "/" ++ numStr chainGroup

/-- `parseChain(chainString)`: normalise slashes to colons and split. -/
def parseChain (chainString : String) : Option Int × Option Int :=
  let parts := jsSplit ':' (jsReplace '/' ':' chainString)
  (fieldNum (parts.get? 1), fieldNum (parts.get? 2))

/-- `isCompatibleChain(chain)`: namespace check only. -/
def isCompatibleChain (chain : String) : Bool :=
  jsStartsWith chain "alephium:"

/-- `isCompatibleChainGroup(expectedChainGroup, chainGroup)`: the
configured group `-1` is the wildcard, otherwise strict equality. -/
def isCompatibleChainGroup (expectedChainGroup chainGroup : Option Int) : Bool :=
  jsEq expectedChainGroup (some (-1)) || jsEq expectedChainGroup chainGroup

/-- `formatAccount(permittedChain, account)`. -/
def formatAccount (permittedChain : String) (account : Account) : String :=
  permittedChain ++ ":" ++ jsStringOf account.address ++ "+" ++ jsStringOf account.pubkey

/-- The `permittedChain` getter. -/
def permittedChain (s : ProviderState) : String :=
  formatChain s.networkId s.chainGroup

/-- `parseAccount(account)`: normalise plus signs to colons, split, read
address/pubkey from fields 2 and 3 and recompute the group from the
address with `groupOfAddress` (an external library function, passed in
as `groupOfAddress`). -/
def parseAccount (groupOfAddress : Option String → Option Int) (account : String) :
    Account :=
  let parts := jsSplit ':' (jsReplace '+' ':' account)
  { address := parts.get? 2
    pubkey := parts.get? 3
    group := groupOfAddress (parts.get? 2) }

/-- `sameAccounts(account0, account1)` rendered under the current
`permittedChain`. -/
def sameAccounts (s : ProviderState) (account0 : List Account)
    (account1 : Option (List Account)) : Bool :=
  match account1 with
  | none => false
  | some l =>
    joinComma (account0.map (formatAccount (permittedChain s))) ==
      joinComma (l.map (formatAccount (permittedChain s)))

/-- `sameChains(chains0, chains1)`. -/
def sameChains (chains0 : List String) (chains1 : Option (List String)) : Bool :=
  match chains1 with
  | none => false
  | some l => joinComma chains0 == joinComma l

/-- `setAccounts(accounts)`: raw-payload dedup, then the group filter
through `isCompatibleChainGroup`, then dedup against the published
state. Second component: payload of the emitted `accountsChanged`. -/
def setAccounts (groupOfAddress : Option String → Option Int) (s : ProviderState)
    (accounts : List String) : ProviderState × Option (List Account) :=
  let parsedAccounts := accounts.map (parseAccount groupOfAddress)
  if sameAccounts s parsedAccounts s.lastSetAccounts then (s, none)
  else
    let s1 : ProviderState := { s with lastSetAccounts := some parsedAccounts }
    let newAccounts :=
      parsedAccounts.filter (fun a => isCompatibleChainGroup s.chainGroup a.group)
    if sameAccounts s1 newAccounts (some s1.accounts) then (s1, none)
    else ({ s1 with accounts := newAccounts }, some newAccounts)

/-- `setChain(chains)`: raw dedup against `lastSetChains`, then adopt the
first namespace-compatible entry. Second component: payload of the
emitted `networkChanged`. -/
def setChain (s : ProviderState) (chains : List String) :
    ProviderState × Option (Option Int) :=
  if sameChains chains s.lastSetChains then (s, none)
  else
    let s1 : ProviderState := { s with lastSetChains := some chains }
    match chains.filter (fun x => isCompatibleChain x) with
    | [] => (s1, none)
    | c :: _ =>
      let p := parseChain c
      ({ s1 with networkId := p.1, chainGroup := p.2 }, some p.1)

/-- The parameters object of a request; only the `signerAddress` field is
inspected by the dispatcher. -/
structure RequestParams where
  signerAddress : Option String
deriving DecidableEq, Repr

/-- `RequestArguments`: a method name plus optional parameters. -/
structure RequestArguments where
  method : String
  params : Option RequestParams
deriving DecidableEq, Repr

/-- Observable outcome of `request(args)`: answered locally from the
cache, forwarded to the channel with a chain tag, or rejected. The two
error constructors model the thrown `Cannot request without
signerAddress` and `Unknown signer address` exceptions; the rejection
models the `Invalid method was passed` promise rejection. -/
inductive RequestOutcome where
  | answered (accounts : List Account)
  | forwarded (args : RequestArguments) (chainId : String)
  | errMissingSigner
  | errUnknownSigner
  | rejectedInvalidMethod
deriving DecidableEq, Repr

/-- `args.params?.signerAddress`. -/
def signerAddressOf (params : Option RequestParams) : Option String :=
  match params with
  | none => none
  | some p => p.signerAddress

/-- `request(args)` from the `WalletConnectProvider` class:
`alph_getAccounts` is answered from the cache; any other supported
method requires a signer address that resolves against the cached
accounts and is forwarded tagged with the chain id of the resolved
account group; unsupported methods are rejected. -/
def request (s : ProviderState) (args : RequestArguments) : RequestOutcome :=
  if args.method = "alph_getAccounts" then .answered s.accounts
  else if s.methods.contains args.method then
    match signerAddressOf args.params with
    | none => .errMissingSigner
    | some addr =>
      match s.accounts.find? (fun a => a.address == some addr) with
      | none => .errUnknownSigner
      | some acc => .forwarded args (formatChain s.networkId acc.group)
  else .rejectedInvalidMethod

end WalletConnectProvider

namespace JsPrim

theorem jsEq_some_iff (o : Option Int) (g : Int) :
    jsEq o (some g) = true ↔ o = some g := by
  cases o with
  | none => simp [jsEq]
  | some x => simp [jsEq]

theorem jsEq_none_left (o : Option Int) : jsEq none o = false := rfl

end JsPrim

namespace AlephiumProvider

theorem sameAccounts_some_self (networkId : Option Int) (l : List Account) :
    sameAccounts networkId l (some l) = true := by
  simp [sameAccounts]

theorem parseChain_group_nonneg (s : String) (z : Int)
    (h : (parseChain s).2 = some z) : 0 ≤ z := by
  simp only [parseChain] at h
  cases hg : (jsSplit ':' (jsReplace '-' ':' s)).get? 2 with
  | none => rw [hg] at h; simp [fieldNum] at h
  | some t =>
    rw [hg] at h
    simp only [fieldNum] at h
    have ht : t ∈ jsSplit ':' (jsReplace '-' ':' s) := List.get?_mem hg
    rcases List.mem_map.mp ht with ⟨p, hp, hpt⟩
    have hnomem : '-' ∉ p := by
      intro hmem
      have hin := mem_of_mem_splitChar ':' (jsReplace '-' ':' s).data p hp '-' hmem
      have hno := not_mem_map_replace '-' ':' (by decide) s.data '-' (by
        simpa [jsReplace, data_mk] using hin.1)
      exact hno rfl
    subst hpt
    exact jsNumber_nonneg p hnomem z h

theorem setAccounts_dedup_eq (s : ProviderState) (accs : List String)
    (h : sameAccounts s.networkId (accs.map parseAccount) s.lastSetAccounts = true) :
    setAccounts s accs = (s, none) := by
  simp only [setAccounts]
  rw [if_pos h]

theorem setAccounts_stale_eq (s : ProviderState) (accs : List String)
    (h1 : sameAccounts s.networkId (accs.map parseAccount) s.lastSetAccounts = false)
    (h2 : sameAccounts s.networkId
        ((accs.map parseAccount).filter (fun a => jsEq a.group s.chainGroup))
        (some s.accounts) = true) :
    setAccounts s accs =
      ({ s with lastSetAccounts := some (accs.map parseAccount) }, none) := by
  simp only [setAccounts]
  rw [if_neg (by simp [h1]), if_pos h2]

theorem setAccounts_update_eq (s : ProviderState) (accs : List String)
    (h1 : sameAccounts s.networkId (accs.map parseAccount) s.lastSetAccounts = false)
    (h2 : sameAccounts s.networkId
        ((accs.map parseAccount).filter (fun a => jsEq a.group s.chainGroup))
        (some s.accounts) = false) :
    setAccounts s accs =
      ({ s with
          lastSetAccounts := some (accs.map parseAccount)
          accounts :=
            (accs.map parseAccount).filter (fun a => jsEq a.group s.chainGroup) },
        some ((accs.map parseAccount).filter (fun a => jsEq a.group s.chainGroup))) := by
  simp only [setAccounts]
  rw [if_neg (by simp [h1]), if_neg (by simp [h2])]

end AlephiumProvider

namespace WalletConnectProvider

theorem sameAccounts_some_self_wc (s : ProviderState) (l : List Account) :
    sameAccounts s l (some l) = true := by
  simp [sameAccounts]

theorem sameAccounts_update_lastSet (s : ProviderState) (v : Option (List Account))
    (l0 : List Account) (l1 : Option (List Account)) :
    sameAccounts { s with lastSetAccounts := v } l0 l1 = sameAccounts s l0 l1 := rfl

theorem setAccounts_dedup_eq_wc (groupOfAddress : Option String → Option Int)
    (s : ProviderState) (accs : List String)
    (h : sameAccounts s (accs.map (parseAccount groupOfAddress)) s.lastSetAccounts = true) :
    setAccounts groupOfAddress s accs = (s, none) := by
  simp only [setAccounts]
  rw [if_pos h]

theorem setAccounts_stale_eq_wc (groupOfAddress : Option String → Option Int)
    (s : ProviderState) (accs : List String)
    (h1 : sameAccounts s (accs.map (parseAccount groupOfAddress)) s.lastSetAccounts = false)
    (h2 : sameAccounts s
        ((accs.map (parseAccount groupOfAddress)).filter
          (fun a => isCompatibleChainGroup s.chainGroup a.group))
        (some s.accounts) = true) :
    setAccounts groupOfAddress s accs =
      ({ s with lastSetAccounts := some (accs.map (parseAccount groupOfAddress)) }, none) := by
  simp only [setAccounts]
  rw [if_neg (by simp [h1])]
  rw [if_pos (by rw [sameAccounts_update_lastSet]; exact h2)]

theorem setAccounts_update_eq_wc (groupOfAddress : Option String → Option Int)
    (s : ProviderState) (accs : List String)
    (h1 : sameAccounts s (accs.map (parseAccount groupOfAddress)) s.lastSetAccounts = false)
    (h2 : sameAccounts s
        ((accs.map (parseAccount groupOfAddress)).filter
          (fun a => isCompatibleChainGroup s.chainGroup a.group))
        (some s.accounts) = false) :
    setAccounts groupOfAddress s accs =
      ({ s with
          lastSetAccounts := some (accs.map (parseAccount groupOfAddress))
          accounts :=
            (accs.map (parseAccount groupOfAddress)).filter
              (fun a => isCompatibleChainGroup s.chainGroup a.group) },
        some ((accs.map (parseAccount groupOfAddress)).filter
          (fun a => isCompatibleChainGroup s.chainGroup a.group))) := by
  simp only [setAccounts]
  rw [if_neg (by simp [h1])]
  rw [if_neg (by rw [sameAccounts_update_lastSet]; simp [h2])]

theorem isCompatibleChainGroup_wildcard (g : Option Int) :
    isCompatibleChainGroup (some (-1)) g = true := by
  simp [isCompatibleChainGroup, jsEq]

theorem formatChain_inj_group (n g g2 : Option Int)
    (h : formatChain n g = formatChain n g2) : g = g2 := by
  unfold formatChain at h
  have hd := congrArg String.data h
  rw [data_append, data_append] at hd
  exact numStr_inj (String.ext (List.append_cancel_left hd))

end WalletConnectProvider

/-- C1: for every signing request whose method is supported and is not
alph_getAccounts, the `WalletConnectProvider` dispatcher fails with the
missing-signer error when the parameters carry no signerAddress (so
nothing is forwarded: the outcome is an error constructor, not
`forwarded`); fails with the unknown-signer error when the address
matches no cached account; and otherwise forwards the request tagged
with the chain id formatted from the current networkId and the resolved
account group — a tag that differs from the one of the configured
default group whenever the resolved group differs from it. -/
theorem claim_C1_request_signer_scoping
    (s : WalletConnectProvider.ProviderState)
    (args : WalletConnectProvider.RequestArguments)
    (hm : ¬args.method = "alph_getAccounts")
    (hs : s.methods.contains args.method = true) :
    (WalletConnectProvider.signerAddressOf args.params = none →
      WalletConnectProvider.request s args = .errMissingSigner) ∧
    (∀ addr, WalletConnectProvider.signerAddressOf args.params = some addr →
      s.accounts.find? (fun a => a.address == some addr) = none →
      WalletConnectProvider.request s args = .errUnknownSigner) ∧
    (∀ addr acc, WalletConnectProvider.signerAddressOf args.params = some addr →
      s.accounts.find? (fun a => a.address == some addr) = some acc →
      WalletConnectProvider.request s args =
        .forwarded args (WalletConnectProvider.formatChain s.networkId acc.group) ∧
      (¬acc.group = s.chainGroup →
        ¬WalletConnectProvider.formatChain s.networkId acc.group =
          WalletConnectProvider.formatChain s.networkId s.chainGroup)) := by
  have hmem : args.method ∈ s.methods := by simpa using hs
  refine ⟨?_, ?_, ?_⟩
  · intro h
    simp [WalletConnectProvider.request, hm, hmem, h]
  · intro addr h hf
    simp [WalletConnectProvider.request, hm, hmem, h, hf]
  · intro addr acc h hf
    refine ⟨by simp [WalletConnectProvider.request, hm, hmem, h, hf], ?_⟩
    intro hne he
    exact hne (WalletConnectProvider.formatChain_inj_group s.networkId acc.group s.chainGroup he)

/-- A concrete dispatcher state: configured for network 4 and group 2,
holding one cached account that lives in group 3. -/
def requestStateW : WalletConnectProvider.ProviderState :=
  { networkId := some 4
    chainGroup := some 2
    methods := WalletConnectProvider.signerMethods
    accounts := [{ address := some "addr1", pubkey := some "pk1", group := some 3 }]
    lastSetAccounts := none
    lastSetChains := none }

/-- Witness for C1: at the concrete state `requestStateW`, a request
without signerAddress errs with the missing-signer error, an unknown
address errs with the unknown-signer error, and the known address
"addr1" is forwarded tagged "alephium:4/3" — the group of the resolved
account, not the configured group 2. -/
theorem claim_C1_witness :
    WalletConnectProvider.request requestStateW
        { method := "alph_signTransferTx", params := some { signerAddress := none } } =
      .errMissingSigner ∧
    WalletConnectProvider.request requestStateW
        { method := "alph_signTransferTx", params := some { signerAddress := some "nope" } } =
      .errUnknownSigner ∧
    WalletConnectProvider.request requestStateW
        { method := "alph_signTransferTx", params := some { signerAddress := some "addr1" } } =
      .forwarded
        { method := "alph_signTransferTx", params := some { signerAddress := some "addr1" } }
        "alephium:4/3" := by
  refine ⟨?_, ?_, ?_⟩
  · exact (claim_C1_request_signer_scoping requestStateW
      { method := "alph_signTransferTx", params := some { signerAddress := none } }
      (by decide) (by decide)).1 rfl
  · exact (claim_C1_request_signer_scoping requestStateW
      { method := "alph_signTransferTx", params := some { signerAddress := some "nope" } }
      (by decide) (by decide)).2.1 "nope" rfl (by decide)
  · have h := (claim_C1_request_signer_scoping requestStateW
      { method := "alph_signTransferTx", params := some { signerAddress := some "addr1" } }
      (by decide) (by decide)).2.2
      "addr1" { address := some "addr1", pubkey := some "pk1", group := some 3 } rfl (by decide)
    rw [h.1]
    decide

/-- C2 (amended): the account dedup tier compares the parse of the
incoming payload against the cached parse of the previous raw payload
(both rendered through formatAccount under the current networkId), and
never against the previously filtered result; resubmitting a raw payload
whose parse is cached is therefore always a no-op that changes no state
and emits no event. Two raw payloads that differ string-for-string but
parse to the same accounts are, however, also treated as identical (see
the counterexample), so identity is decided by the parsed rendering, not
raw-string equality. -/
theorem claim_C2_dedup_parsed_noop (s : AlephiumProvider.ProviderState)
    (raw : List String)
    (h : s.lastSetAccounts = some (raw.map AlephiumProvider.parseAccount)) :
    AlephiumProvider.setAccounts s raw = (s, none) := by
  apply AlephiumProvider.setAccounts_dedup_eq
  rw [h]
  exact AlephiumProvider.sameAccounts_some_self s.networkId (raw.map AlephiumProvider.parseAccount)

/-- Reconciler state whose dedup cache holds the parse of the raw
payload ["alephium:0-1:a-p"]. -/
def dedupStateC2 : AlephiumProvider.ProviderState :=
  { networkId := some 4
    chainGroup := some 1
    accounts := []
    lastSetAccounts := some (["alephium:0-1:a-p"].map AlephiumProvider.parseAccount) }

/-- Counterexample for C2 as stated: the incoming raw payload
["alephium:9-1:a-p"] differs string-for-string from the cached raw
payload ["alephium:0-1:a-p"], yet reconciliation treats the two as
identical and no-ops, because the comparison drops the network field
during parsing — so payloads are NOT treated as identical exactly when
their raw account-string lists are equal. -/
theorem claim_C2_counterexample :
    ¬(["alephium:9-1:a-p"] = ["alephium:0-1:a-p"]) ∧
    AlephiumProvider.setAccounts dedupStateC2 ["alephium:9-1:a-p"] = (dedupStateC2, none) := by
  refine ⟨by decide, by decide⟩

/-- Witness for C2: resubmitting the exact cached raw payload is a
no-op with no event. -/
theorem claim_C2_witness :
    dedupStateC2.lastSetAccounts =
      some (["alephium:0-1:a-p"].map AlephiumProvider.parseAccount) ∧
    AlephiumProvider.setAccounts dedupStateC2 ["alephium:0-1:a-p"] = (dedupStateC2, none) :=
  ⟨rfl, claim_C2_dedup_parsed_noop dedupStateC2 ["alephium:0-1:a-p"] rfl⟩

/-- C3 (amended): in src/src/index.ts, isCompatibleChain(s) is true
exactly when s starts with the namespace marker AND the group decoded
from s strictly equals the configured group; there is no wildcard
disjunct. In particular, because the decoder rewrites every dash to a
colon before splitting, no chain string decodes to a negative group, so
under the wildcard configuration -1 the predicate rejects every chain
string. -/
theorem claim_C3_isCompatibleChain_no_wildcard :
    (∀ (g : Int) (s : String),
      AlephiumProvider.isCompatibleChain (some g) s = true ↔
        (jsStartsWith s "alephium:" = true ∧ (AlephiumProvider.parseChain s).2 = some g)) ∧
    (∀ s : String, AlephiumProvider.isCompatibleChain (some (-1)) s = false) := by
  have hiff : ∀ (g : Int) (s : String),
      AlephiumProvider.isCompatibleChain (some g) s = true ↔
        (jsStartsWith s "alephium:" = true ∧ (AlephiumProvider.parseChain s).2 = some g) := by
    intro g s
    unfold AlephiumProvider.isCompatibleChain
    rw [Bool.and_eq_true]
    constructor
    · rintro ⟨h1, h2⟩
      exact ⟨h1, (jsEq_some_iff (AlephiumProvider.parseChain s).2 g).mp h2⟩
    · rintro ⟨h1, h2⟩
      exact ⟨h1, (jsEq_some_iff (AlephiumProvider.parseChain s).2 g).mpr h2⟩
  refine ⟨hiff, ?_⟩
  intro s
  cases hb : AlephiumProvider.isCompatibleChain (some (-1)) s with
  | false => rfl
  | true =>
    exfalso
    have h2 := ((hiff (-1) s).mp hb).2
    have h3 := AlephiumProvider.parseChain_group_nonneg s (-1) h2
    omega

/-- Counterexample for C3 as stated: with the configured group equal to
the wildcard -1, the chain string "alephium:4-2" starts with the
configured namespace marker, so the claim requires isCompatibleChain to
return true (wildcard disjunct) — but the code returns false because it
compares the decoded group 2 against -1 with no wildcard case. -/
theorem claim_C3_counterexample :
    jsStartsWith "alephium:4-2" "alephium:" = true ∧
    AlephiumProvider.isCompatibleChain (some (-1)) "alephium:4-2" = false := by
  refine ⟨by decide, by decide⟩

/-- Witness for C3: the iff applied at the concrete matching chain, and
the wildcard-rejection clause applied at a concrete string. -/
theorem claim_C3_witness :
    AlephiumProvider.isCompatibleChain (some 2) "alephium:4-2" = true ∧
    AlephiumProvider.isCompatibleChain (some (-1)) "alephium:9-0" = false :=
  ⟨(claim_C3_isCompatibleChain_no_wildcard.1 2 "alephium:4-2").mpr ⟨by decide, by decide⟩,
   claim_C3_isCompatibleChain_no_wildcard.2 "alephium:9-0"⟩

/-- C4: in the `WalletConnectProvider` reconciler, with the configured
group equal to the wildcard -1, the compatibility filter retains every
parsed incoming account — in particular every account string with the
configured namespace — regardless of its group; and whenever the
reconciler publishes (emits an accountsChanged event), the published
account list and the event payload are the full parsed incoming list. -/
theorem claim_C4_wildcard_passthrough
    (groupOfAddress : Option String → Option Int)
    (s : WalletConnectProvider.ProviderState) (accs : List String)
    (hw : s.chainGroup = some (-1)) :
    (∀ a ∈ accs, jsStartsWith a "alephium:" = true →
      WalletConnectProvider.parseAccount groupOfAddress a ∈
        (accs.map (WalletConnectProvider.parseAccount groupOfAddress)).filter
          (fun x => WalletConnectProvider.isCompatibleChainGroup s.chainGroup x.group)) ∧
    (∀ ev, (WalletConnectProvider.setAccounts groupOfAddress s accs).2 = some ev →
      ev = accs.map (WalletConnectProvider.parseAccount groupOfAddress) ∧
      (WalletConnectProvider.setAccounts groupOfAddress s accs).1.accounts =
        accs.map (WalletConnectProvider.parseAccount groupOfAddress)) := by
  have hfilter :
      (accs.map (WalletConnectProvider.parseAccount groupOfAddress)).filter
          (fun x => WalletConnectProvider.isCompatibleChainGroup s.chainGroup x.group) =
        accs.map (WalletConnectProvider.parseAccount groupOfAddress) := by
    apply List.filter_eq_self.mpr
    intro a _
    rw [hw]
    exact WalletConnectProvider.isCompatibleChainGroup_wildcard a.group
  constructor
  · intro a ha _
    rw [hfilter]
    exact List.mem_map.mpr ⟨a, ha, rfl⟩
  · intro ev hev
    by_cases h1 : WalletConnectProvider.sameAccounts s
        (accs.map (WalletConnectProvider.parseAccount groupOfAddress))
        s.lastSetAccounts = true
    · rw [WalletConnectProvider.setAccounts_dedup_eq_wc groupOfAddress s accs h1] at hev
      exact absurd hev (by simp)
    · have h1f : WalletConnectProvider.sameAccounts s
          (accs.map (WalletConnectProvider.parseAccount groupOfAddress))
          s.lastSetAccounts = false := by
        cases hb : WalletConnectProvider.sameAccounts s
            (accs.map (WalletConnectProvider.parseAccount groupOfAddress))
            s.lastSetAccounts
        · rfl
        · exact absurd hb h1
      by_cases h2 : WalletConnectProvider.sameAccounts s
          ((accs.map (WalletConnectProvider.parseAccount groupOfAddress)).filter
            (fun a => WalletConnectProvider.isCompatibleChainGroup s.chainGroup a.group))
          (some s.accounts) = true
      · rw [WalletConnectProvider.setAccounts_stale_eq_wc groupOfAddress s accs h1f h2] at hev
        exact absurd hev (by simp)
      · have h2f : WalletConnectProvider.sameAccounts s
            ((accs.map (WalletConnectProvider.parseAccount groupOfAddress)).filter
              (fun a => WalletConnectProvider.isCompatibleChainGroup s.chainGroup a.group))
            (some s.accounts) = false := by
          cases hb : WalletConnectProvider.sameAccounts s
              ((accs.map (WalletConnectProvider.parseAccount groupOfAddress)).filter
                (fun a => WalletConnectProvider.isCompatibleChainGroup s.chainGroup a.group))
              (some s.accounts)
          · rfl
          · exact absurd hb h2
        rw [WalletConnectProvider.setAccounts_update_eq_wc groupOfAddress s accs h1f h2f] at hev ⊢
        simp only [Option.some_inj] at hev
        subst hev
        exact ⟨hfilter, hfilter⟩

/-- Group oracle for the C4 witness: "addrA" lives in group 2, every
other address in group 5. -/
def groupOfAddressW : Option String → Option Int :=
  fun a => if a = some "addrA" then some 2 else some 5

/-- A wildcard-configured `WalletConnectProvider` state. -/
def wildcardStateW : WalletConnectProvider.ProviderState :=
  { networkId := some 4
    chainGroup := some (-1)
    methods := WalletConnectProvider.signerMethods
    accounts := []
    lastSetAccounts := none
    lastSetChains := none }

/-- Witness for C4: under the wildcard configuration the group-5 account
"addrB" passes the filter and the reconciler publishes both incoming
accounts (groups 2 and 5). -/
theorem claim_C4_witness :
    wildcardStateW.chainGroup = some (-1) ∧
    WalletConnectProvider.parseAccount groupOfAddressW "alephium:4/-1:addrB+pkB" ∈
      ((["alephium:4/-1:addrA+pkA", "alephium:4/-1:addrB+pkB"].map
          (WalletConnectProvider.parseAccount groupOfAddressW)).filter
        (fun x =>
          WalletConnectProvider.isCompatibleChainGroup wildcardStateW.chainGroup x.group)) ∧
    (WalletConnectProvider.setAccounts groupOfAddressW wildcardStateW
        ["alephium:4/-1:addrA+pkA", "alephium:4/-1:addrB+pkB"]).1.accounts =
      ["alephium:4/-1:addrA+pkA", "alephium:4/-1:addrB+pkB"].map
        (WalletConnectProvider.parseAccount groupOfAddressW) := by
  have h := claim_C4_wildcard_passthrough groupOfAddressW wildcardStateW
    ["alephium:4/-1:addrA+pkA", "alephium:4/-1:addrB+pkB"] rfl
  refine ⟨rfl, h.1 "alephium:4/-1:addrB+pkB" (by decide) (by decide), ?_⟩
  exact (h.2 (["alephium:4/-1:addrA+pkA", "alephium:4/-1:addrB+pkB"].map
    (WalletConnectProvider.parseAccount groupOfAddressW)) (by decide)).2

namespace JsPrim

theorem natDigs_ne_colon (n : Nat) : ∀ c ∈ natDigs n, ¬c = ':' := by
  intro c hc
  exact (isDigit_ne c (natDigs_digits n c hc)).2.2.1

theorem natDigs_ne_dash (n : Nat) : ∀ c ∈ natDigs n, ¬c = '-' := by
  intro c hc
  exact (isDigit_ne c (natDigs_digits n c hc)).1

theorem numStr_ofNat (n : Nat) : numStr (some (n : Int)) = natStr n := rfl

theorem natStr_data (n : Nat) : (natStr n).data = natDigs n := rfl

end JsPrim

namespace AlephiumProvider

theorem formatChain_data (c g : Nat) :
    (formatChain (some (c : Int)) (some (g : Int))).data =
      "alephium:".data ++ (natDigs c ++ '-' :: natDigs g) := by
  unfold formatChain
  rw [numStr_ofNat, numStr_ofNat, data_append, data_append, data_append]
  simp [natStr_data, List.append_assoc]

theorem replace_formatChain_data (c g : Nat) :
    (jsReplace '-' ':' (formatChain (some (c : Int)) (some (g : Int)))).data =
      "alephium".data ++ ':' :: (natDigs c ++ ':' :: natDigs g) := by
  show (formatChain (some (c : Int)) (some (g : Int))).data.map
      (fun ch => if ch = '-' then ':' else ch) = _
  rw [formatChain_data, List.map_append, List.map_append]
  have halep : "alephium:".data.map (fun ch => if ch = '-' then ':' else ch) =
      "alephium".data ++ [':'] := by decide
  have hc1 : (natDigs c).map (fun ch => if ch = '-' then ':' else ch) = natDigs c :=
    map_replace_of_not_mem '-' ':' (natDigs c) (natDigs_ne_dash c)
  have hg1 : ('-' :: natDigs g).map (fun ch => if ch = '-' then ':' else ch) =
      ':' :: natDigs g := by
    rw [List.map_cons, if_pos rfl,
      map_replace_of_not_mem '-' ':' (natDigs g) (natDigs_ne_dash g)]
  rw [halep, hc1, hg1]
  simp [List.append_assoc]

theorem chain_roundtrip_nat (c g : Nat) :
    parseChain (formatChain (some (c : Int)) (some (g : Int))) =
      (some (c : Int), some (g : Int)) := by
  unfold parseChain
  simp only [jsSplit]
  rw [replace_formatChain_data]
  rw [splitChar_append_sep ':' "alephium".data _ (by decide)]
  rw [splitChar_append_sep ':' (natDigs c) _ (natDigs_ne_colon c)]
  rw [splitChar_all_ne ':' (natDigs g) (natDigs_ne_colon g)]
  simp only [List.map_cons, List.map_nil, List.get?]
  simp only [fieldNum]
  rw [show String.mk (natDigs c) = natStr c from rfl,
    show String.mk (natDigs g) = natStr g from rfl,
    jsNumber_natStr, jsNumber_natStr]

end AlephiumProvider

namespace AlephiumProvider

/-- Address or pubkey strings free of the two separator characters of
the src/src/index.ts wire format (colon and dash). -/
abbrev sepFree (s : String) : Prop := ∀ c ∈ s.data, ¬c = ':' ∧ ¬c = '-'

theorem formatAccount_data (n g : Nat) (addr pk : String) :
    (formatAccount (some (n : Int))
        { address := some addr, pubkey := some pk, group := some (g : Int) }).data =
      "alephium:".data ++
        (natDigs n ++ '-' :: (natDigs g ++ ':' :: (addr.data ++ '-' :: pk.data))) := by
  unfold formatAccount
  simp only [jsStringOf]
  rw [numStr_ofNat, numStr_ofNat]
  rw [data_append, data_append, data_append, data_append, data_append, data_append]
  simp [natStr_data, List.append_assoc]

theorem replace_formatAccount_data (n g : Nat) (addr pk : String)
    (ha : sepFree addr) (hp : sepFree pk) :
    (jsReplace '-' ':'
        (formatAccount (some (n : Int))
          { address := some addr, pubkey := some pk, group := some (g : Int) })).data =
      "alephium".data ++
        ':' :: (natDigs n ++ ':' :: (natDigs g ++ ':' :: (addr.data ++ ':' :: pk.data))) := by
  show (formatAccount (some (n : Int))
      { address := some addr, pubkey := some pk, group := some (g : Int) }).data.map
        (fun ch => if ch = '-' then ':' else ch) = _
  rw [formatAccount_data]
  have halep : "alephium:".data.map (fun ch => if ch = '-' then ':' else ch) =
      "alephium".data ++ [':'] := by decide
  have hn1 : (natDigs n).map (fun ch => if ch = '-' then ':' else ch) = natDigs n :=
    map_replace_of_not_mem '-' ':' (natDigs n) (natDigs_ne_dash n)
  have hg1 : (natDigs g).map (fun ch => if ch = '-' then ':' else ch) = natDigs g :=
    map_replace_of_not_mem '-' ':' (natDigs g) (natDigs_ne_dash g)
  have haddr : addr.data.map (fun ch => if ch = '-' then ':' else ch) = addr.data :=
    map_replace_of_not_mem '-' ':' addr.data (fun c hc => (ha c hc).2)
  have hpk : pk.data.map (fun ch => if ch = '-' then ':' else ch) = pk.data :=
    map_replace_of_not_mem '-' ':' pk.data (fun c hc => (hp c hc).2)
  rw [List.map_append, halep]
  rw [List.map_append, hn1]
  rw [List.map_cons, if_pos rfl]
  rw [List.map_append, hg1]
  rw [List.map_cons, if_neg (by decide)]
  rw [List.map_append, haddr]
  rw [List.map_cons, if_pos rfl, hpk]
  simp [List.append_assoc]

theorem account_roundtrip_nat (n g : Nat) (addr pk : String)
    (ha : sepFree addr) (hp : sepFree pk) :
    parseAccount
        (formatAccount (some (n : Int))
          { address := some addr, pubkey := some pk, group := some (g : Int) }) =
      { address := some addr, pubkey := some pk, group := some (g : Int) } := by
  unfold parseAccount
  simp only [jsSplit]
  rw [replace_formatAccount_data n g addr pk ha hp]
  rw [splitChar_append_sep ':' "alephium".data _ (by decide)]
  rw [splitChar_append_sep ':' (natDigs n) _ (natDigs_ne_colon n)]
  rw [splitChar_append_sep ':' (natDigs g) _ (natDigs_ne_colon g)]
  rw [splitChar_append_sep ':' addr.data _ (fun c hc => (ha c hc).1)]
  rw [splitChar_all_ne ':' pk.data (fun c hc => (hp c hc).1)]
  simp only [List.map_cons, List.map_nil, List.get?, fieldNum]
  rw [show String.mk (natDigs g) = natStr g from rfl, jsNumber_natStr]

end AlephiumProvider

/-- C5 (amended): the src/src/index.ts codec round-trips chain pairs
whose components are both non-negative, and accounts whose group is
non-negative and whose address and pubkey contain neither a colon nor a
dash. The sentinel -1 breaks the chain round-trip (its minus sign
collides with the dash separator, see the counterexample), and a
separator character inside an address or pubkey breaks the account
round-trip. -/
theorem claim_C5_codec_roundtrip :
    (∀ c g : Nat,
      AlephiumProvider.parseChain
          (AlephiumProvider.formatChain (some (c : Int)) (some (g : Int))) =
        (some (c : Int), some (g : Int))) ∧
    (∀ (n g : Nat) (addr pk : String), AlephiumProvider.sepFree addr →
      AlephiumProvider.sepFree pk →
      AlephiumProvider.parseAccount
          (AlephiumProvider.formatAccount (some (n : Int))
            { address := some addr, pubkey := some pk, group := some (g : Int) }) =
        { address := some addr, pubkey := some pk, group := some (g : Int) }) :=
  ⟨AlephiumProvider.chain_roundtrip_nat, AlephiumProvider.account_roundtrip_nat⟩

/-- Counterexample for C5 as stated: the claim includes the wildcard -1
among the valid groupRef values, but decoding the encoded pair (4, -1)
yields (4, 0), and an account whose (claim-wise arbitrary) address contains
a dash does not survive the account round-trip either. -/
theorem claim_C5_counterexample :
    ¬(AlephiumProvider.parseChain
        (AlephiumProvider.formatChain (some 4) (some (-1))) = (some 4, some (-1))) ∧
    ¬(AlephiumProvider.parseAccount
        (AlephiumProvider.formatAccount (some 4)
          { address := some "a-b", pubkey := some "pk", group := some 2 }) =
      { address := some "a-b", pubkey := some "pk", group := some 2 }) := by
  refine ⟨by decide, by decide⟩

/-- Witness for C5 at the concrete pair (4, 2) and a concrete
separator-free account. -/
theorem claim_C5_witness :
    AlephiumProvider.parseChain
        (AlephiumProvider.formatChain (some 4) (some 2)) = (some 4, some 2) ∧
    AlephiumProvider.parseAccount
        (AlephiumProvider.formatAccount (some 4)
          { address := some "addrA", pubkey := some "pkA", group := some 2 }) =
      { address := some "addrA", pubkey := some "pkA", group := some 2 } :=
  ⟨claim_C5_codec_roundtrip.1 4 2,
   claim_C5_codec_roundtrip.2 4 2 "addrA" "pkA" (by decide) (by decide)⟩

/-- A total-boolean fact used when turning branch guards around. -/
theorem bool_eq_false_of_not_true {b : Bool} (h : ¬b = true) : b = false := by
  cases b
  · rfl
  · exact absurd rfl h

/-- C6: with a configured group G (and G not the wildcard), reconciling a
fresh incoming account list whose filtered result differs from the
published state publishes exactly the group-G members (in incoming
order) and emits exactly one accountsChanged event carrying that same
filtered list; every parsed account of group G is in the published list
and every parsed account of any other group is excluded from it (and
hence from the event payload, which equals it). -/
theorem claim_C6_group_scoping (s : AlephiumProvider.ProviderState) (G : Int)
    (accs : List String)
    (hG : s.chainGroup = some G) (_hGw : ¬G = -1)
    (h1 : AlephiumProvider.sameAccounts s.networkId
        (accs.map AlephiumProvider.parseAccount) s.lastSetAccounts = false)
    (h2 : AlephiumProvider.sameAccounts s.networkId
        ((accs.map AlephiumProvider.parseAccount).filter
          (fun a => jsEq a.group s.chainGroup))
        (some s.accounts) = false) :
    (AlephiumProvider.setAccounts s accs).2 =
      some ((AlephiumProvider.setAccounts s accs).1.accounts) ∧
    (AlephiumProvider.setAccounts s accs).1.accounts =
      (accs.map AlephiumProvider.parseAccount).filter
        (fun a => jsEq a.group (some G)) ∧
    (∀ a ∈ accs.map AlephiumProvider.parseAccount,
      a.group = some G → a ∈ (AlephiumProvider.setAccounts s accs).1.accounts) ∧
    (∀ a ∈ accs.map AlephiumProvider.parseAccount,
      ¬a.group = some G → a ∉ (AlephiumProvider.setAccounts s accs).1.accounts) := by
  rw [AlephiumProvider.setAccounts_update_eq s accs h1 h2, hG]
  refine ⟨rfl, rfl, ?_, ?_⟩
  · intro a ha hg
    exact List.mem_filter.mpr ⟨ha, (jsEq_some_iff a.group G).mpr hg⟩
  · intro a _ hg hmem
    have hp := (List.mem_filter.mp hmem).2
    simp only at hp
    exact hg ((jsEq_some_iff a.group G).mp hp)

/-- A fresh provider state configured for network 4 and group 2. -/
def scopedStateW : AlephiumProvider.ProviderState :=
  { networkId := some 4, chainGroup := some 2, accounts := [], lastSetAccounts := none }

/-- Witness for C6: groups 2 and 3 arrive; one event fires carrying the
published list, and the group-3 account is not in it. -/
theorem claim_C6_witness :
    (AlephiumProvider.setAccounts scopedStateW
        ["alephium:4-2:addrA-pkA", "alephium:4-3:addrB-pkB"]).2 =
      some ((AlephiumProvider.setAccounts scopedStateW
        ["alephium:4-2:addrA-pkA", "alephium:4-3:addrB-pkB"]).1.accounts) ∧
    AlephiumProvider.parseAccount "alephium:4-3:addrB-pkB" ∉
      (AlephiumProvider.setAccounts scopedStateW
        ["alephium:4-2:addrA-pkA", "alephium:4-3:addrB-pkB"]).1.accounts := by
  have h := claim_C6_group_scoping scopedStateW 2
    ["alephium:4-2:addrA-pkA", "alephium:4-3:addrB-pkB"]
    rfl (by decide) (by decide) (by decide)
  exact ⟨h.1, h.2.2.2 (AlephiumProvider.parseAccount "alephium:4-3:addrB-pkB")
    (by decide) (by decide)⟩

/-- C7: account reconciliation is idempotent on the raw payload — the
second of two successive calls with the same raw account-string list
never changes state and never emits; and when the first call emits, it
emits exactly once, carrying the newly published list, which
render-differs from the previously published state. -/
theorem claim_C7_idempotent_reconciliation (s : AlephiumProvider.ProviderState)
    (accs : List String) :
    AlephiumProvider.setAccounts (AlephiumProvider.setAccounts s accs).1 accs =
      ((AlephiumProvider.setAccounts s accs).1, none) ∧
    (∀ ev, (AlephiumProvider.setAccounts s accs).2 = some ev →
      ev = (AlephiumProvider.setAccounts s accs).1.accounts ∧
      AlephiumProvider.sameAccounts s.networkId ev (some s.accounts) = false) := by
  by_cases h1 : AlephiumProvider.sameAccounts s.networkId
      (accs.map AlephiumProvider.parseAccount) s.lastSetAccounts = true
  · rw [AlephiumProvider.setAccounts_dedup_eq s accs h1]
    refine ⟨AlephiumProvider.setAccounts_dedup_eq s accs h1, ?_⟩
    intro ev hev
    exact absurd hev (by simp)
  · have h1f := bool_eq_false_of_not_true h1
    by_cases h2 : AlephiumProvider.sameAccounts s.networkId
        ((accs.map AlephiumProvider.parseAccount).filter
          (fun a => jsEq a.group s.chainGroup)) (some s.accounts) = true
    · rw [AlephiumProvider.setAccounts_stale_eq s accs h1f h2]
      constructor
      · apply AlephiumProvider.setAccounts_dedup_eq
        exact AlephiumProvider.sameAccounts_some_self s.networkId
          (accs.map AlephiumProvider.parseAccount)
      · intro ev hev
        exact absurd hev (by simp)
    · have h2f := bool_eq_false_of_not_true h2
      rw [AlephiumProvider.setAccounts_update_eq s accs h1f h2f]
      constructor
      · apply AlephiumProvider.setAccounts_dedup_eq
        exact AlephiumProvider.sameAccounts_some_self s.networkId
          (accs.map AlephiumProvider.parseAccount)
      · intro ev hev
        simp only [Option.some_inj] at hev
        subst hev
        exact ⟨rfl, h2f⟩

/-- Witness for C7: a concrete double reconciliation; the second call is
a silent no-op. -/
theorem claim_C7_witness :
    AlephiumProvider.setAccounts
        (AlephiumProvider.setAccounts scopedStateW ["alephium:4-2:addrA-pkA"]).1
        ["alephium:4-2:addrA-pkA"] =
      ((AlephiumProvider.setAccounts scopedStateW ["alephium:4-2:addrA-pkA"]).1, none) ∧
    AlephiumProvider.parseAccount "alephium:4-2:addrA-pkA" ∈
      (AlephiumProvider.setAccounts scopedStateW ["alephium:4-2:addrA-pkA"]).1.accounts := by
  refine ⟨(claim_C7_idempotent_reconciliation scopedStateW ["alephium:4-2:addrA-pkA"]).1, ?_⟩
  decide

/-- C8: when the incoming raw payload is fresh (differs from the dedup
cache) but its filtered result renders equal to the currently published
account list, the reconciler caches the parse of the new raw payload,
leaves the published list untouched, and emits no event. -/
theorem claim_C8_stale_filtered_noop (s : AlephiumProvider.ProviderState)
    (accs : List String)
    (h1 : AlephiumProvider.sameAccounts s.networkId
        (accs.map AlephiumProvider.parseAccount) s.lastSetAccounts = false)
    (h2 : AlephiumProvider.sameAccounts s.networkId
        ((accs.map AlephiumProvider.parseAccount).filter
          (fun a => jsEq a.group s.chainGroup))
        (some s.accounts) = true) :
    (AlephiumProvider.setAccounts s accs).1.accounts = s.accounts ∧
    (AlephiumProvider.setAccounts s accs).2 = none ∧
    (AlephiumProvider.setAccounts s accs).1.lastSetAccounts =
      some (accs.map AlephiumProvider.parseAccount) := by
  rw [AlephiumProvider.setAccounts_stale_eq s accs h1 h2]
  exact ⟨rfl, rfl, rfl⟩

/-- Witness for C8: only an out-of-scope (group 3) account arrives at a
group-2 provider with an empty published list: the filtered result is
empty and equals the published state, so the cache is updated and no
event fires. -/
theorem claim_C8_witness :
    (AlephiumProvider.setAccounts scopedStateW ["alephium:4-3:addrB-pkB"]).1.accounts =
      scopedStateW.accounts ∧
    (AlephiumProvider.setAccounts scopedStateW ["alephium:4-3:addrB-pkB"]).2 = none ∧
    (AlephiumProvider.setAccounts scopedStateW ["alephium:4-3:addrB-pkB"]).1.lastSetAccounts =
      some (["alephium:4-3:addrB-pkB"].map AlephiumProvider.parseAccount) :=
  claim_C8_stale_filtered_noop scopedStateW ["alephium:4-3:addrB-pkB"]
    (by decide) (by decide)

/-- C9 (amended): a chain string whose groupRef field fails integer
parsing decodes to the NaN sentinel and is rejected by the
src/src/index.ts compatibility filter under every configured group,
including the wildcard -1; likewise an account whose group field parsed
to NaN is excluded by the group filter of that provider under every
configuration. (All decoders and filters are total functions, so no
input crashes them.) In the `WalletConnectProvider` revision, however,
chain compatibility checks only the namespace marker and the wildcard
group predicate accepts even a NaN group, so a NaN entry can still
match there — see the counterexample. -/
theorem claim_C9_nan_never_matches :
    (∀ (cfg : Option Int) (s : String), (AlephiumProvider.parseChain s).2 = none →
      AlephiumProvider.isCompatibleChain cfg s = false) ∧
    (∀ (s : AlephiumProvider.ProviderState) (raw : List String) (x : String),
      (AlephiumProvider.parseAccount x).group = none →
      AlephiumProvider.parseAccount x ∉
        (raw.map AlephiumProvider.parseAccount).filter
          (fun a => jsEq a.group s.chainGroup)) := by
  constructor
  · intro cfg s h
    unfold AlephiumProvider.isCompatibleChain
    rw [h]
    simp [jsEq_none_left]
  · intro s raw x h hmem
    have hp := (List.mem_filter.mp hmem).2
    simp only at hp
    rw [h, jsEq_none_left] at hp
    exact absurd hp (by simp)

/-- Counterexample for C9 as stated: in the `WalletConnectProvider`
revision the chain "alephium:4/x" has a groupRef that fails to parse
(NaN), yet the compatibility filter accepts the entry (it checks only
the namespace marker), and the wildcard group predicate accepts the NaN
group as well — the claim says such an entry never matches any
configured chain or group, including under the wildcard. -/
theorem claim_C9_counterexample :
    (WalletConnectProvider.parseChain "alephium:4/x").2 = none ∧
    WalletConnectProvider.isCompatibleChain "alephium:4/x" = true ∧
    WalletConnectProvider.isCompatibleChainGroup (some (-1)) none = true := by
  refine ⟨by decide, by decide, by decide⟩

/-- Provider state used by the C9 witness: wildcard group configured. -/
def nanStateW : AlephiumProvider.ProviderState :=
  { networkId := some 4, chainGroup := some (-1), accounts := [], lastSetAccounts := none }

/-- Witness for C9: the chain "alephium:4-x" and the account
"alephium:4-y:addr-pk" decode to NaN fields and are rejected even under
the wildcard configuration. -/
theorem claim_C9_witness :
    (AlephiumProvider.parseChain "alephium:4-x").2 = none ∧
    AlephiumProvider.isCompatibleChain (some (-1)) "alephium:4-x" = false ∧
    AlephiumProvider.parseAccount "alephium:4-y:addr-pk" ∉
      ((["alephium:4-y:addr-pk"].map AlephiumProvider.parseAccount).filter
        (fun a => jsEq a.group nanStateW.chainGroup)) :=
  ⟨by decide,
   claim_C9_nan_never_matches.1 (some (-1)) "alephium:4-x" (by decide),
   claim_C9_nan_never_matches.2 nanStateW ["alephium:4-y:addr-pk"]
     "alephium:4-y:addr-pk" (by decide)⟩

/-- C10: src/src/index.ts setChain is a frame-preserving no-op (no
state change, no chainChanged event) whenever no incoming entry is
compatible with the configured namespace and group; when at least one
compatible entry exists it adopts the parse of the first one in
incoming order and emits one chainChanged event with the new networkId,
and an event implies a compatible entry existed. -/
theorem claim_C10_setChain_frame (s : AlephiumProvider.ProviderState)
    (chains : List String) :
    ((∀ c ∈ chains, AlephiumProvider.isCompatibleChain s.chainGroup c = false) →
      AlephiumProvider.setChain s chains = (s, none)) ∧
    (∀ c rest,
      chains.filter (fun x => AlephiumProvider.isCompatibleChain s.chainGroup x) =
        c :: rest →
      AlephiumProvider.setChain s chains =
        ({ s with
            networkId := (AlephiumProvider.parseChain c).1
            chainGroup := (AlephiumProvider.parseChain c).2 },
          some (AlephiumProvider.parseChain c).1)) ∧
    (¬(AlephiumProvider.setChain s chains).2 = none →
      ∃ c ∈ chains, AlephiumProvider.isCompatibleChain s.chainGroup c = true) := by
  refine ⟨?_, ?_, ?_⟩
  · intro h
    have hfil : chains.filter
        (fun x => AlephiumProvider.isCompatibleChain s.chainGroup x) = [] := by
      rw [List.filter_eq_nil_iff]
      intro a ha
      simp [h a ha]
    unfold AlephiumProvider.setChain
    rw [hfil]
  · intro c rest hc
    unfold AlephiumProvider.setChain
    rw [hc]
  · intro hne
    by_contra hnone
    push_neg at hnone
    have hfil : chains.filter
        (fun x => AlephiumProvider.isCompatibleChain s.chainGroup x) = [] := by
      rw [List.filter_eq_nil_iff]
      intro a ha
      simp [bool_eq_false_of_not_true (hnone a ha)]
    unfold AlephiumProvider.setChain at hne
    rw [hfil] at hne
    exact hne rfl

/-- Witness for C10: a list with a wrong-namespace entry and a
wrong-group entry leaves the group-2 provider untouched with no event;
a list headed by a compatible entry is adopted and one event fires. -/
theorem claim_C10_witness :
    AlephiumProvider.setChain scopedStateW ["ethereum:1-0", "alephium:5-3"] =
      (scopedStateW, none) ∧
    AlephiumProvider.setChain scopedStateW ["alephium:5-2"] =
      ({ scopedStateW with networkId := some 5, chainGroup := some 2 }, some (some 5)) := by
  constructor
  · exact (claim_C10_setChain_frame scopedStateW ["ethereum:1-0", "alephium:5-3"]).1
      (by decide)
  · have h : AlephiumProvider.setChain scopedStateW ["alephium:5-2"] =
        ({ scopedStateW with
            networkId := (AlephiumProvider.parseChain "alephium:5-2").1
            chainGroup := (AlephiumProvider.parseChain "alephium:5-2").2 },
          some (AlephiumProvider.parseChain "alephium:5-2").1) :=
      (claim_C10_setChain_frame scopedStateW ["alephium:5-2"]).2.1
        "alephium:5-2" [] (by decide)
    rw [h]
    decide
